import Mathlib

set_option autoImplicit false

/-!
Verification of the Texas Hold'em rules engine of astrbot_plugin_texaspoker.

The definitions below are shallow embeddings of the Python sources:
src/models/card.py, src/models/game.py, src/services/betting_round_manager.py,
src/services/game_state_machine.py, src/services/game_engine.py and
src/services/hand_evaluator.py.  Machine integers are modelled as Int
(Python ints are unbounded); Python floor division and modulo on
nonnegative operands agree with Lean's Int division and modulo.
-/

namespace TexasPoker

/-! ## Data model (src/models/card.py, src/models/game.py) -/

/-- Suit enumeration from src/models/card.py. -/
inductive Suit
  | HEARTS | DIAMONDS | CLUBS | SPADES
deriving DecidableEq, Repr, Fintype

/-- A playing card.  The evaluator only ever reads the numeric rank value
(Card.value, 2..14 with Ace = 14) and the suit, so the rank is embedded
directly by its value. -/
structure Card where
  suit : Suit
  value : Nat
deriving DecidableEq, Repr

/-- Game phase enumeration from src/models/game.py. -/
inductive GamePhase
  | WAITING | PRE_FLOP | FLOP | TURN | RIVER | SHOWDOWN | FINISHED
deriving DecidableEq, Repr, Fintype

/-- Player action enumeration from src/models/game.py. -/
inductive PlayerAction
  | FOLD | CHECK | CALL | RAISE | ALL_IN
deriving DecidableEq, Repr, Fintype

/-- Player dataclass from src/models/game.py (the fields the rules engine
reads; statistics-only fields are omitted).  has_acted_this_round is set
dynamically by the engine in Python. -/
structure Player where
  user_id : Nat
  chips : Int
  hole_cards : List Card := []
  current_bet : Int := 0
  is_folded : Bool := false
  is_all_in : Bool := false
  position : Nat := 0
  last_action : Option PlayerAction := none
  has_acted_this_round : Bool := false
deriving DecidableEq, Repr

/-- TexasHoldemGame dataclass from src/models/game.py (fields the rules
engine reads; ids and timestamps are omitted). -/
structure TexasHoldemGame where
  players : List Player := []
  community_cards : List Card := []
  pot : Int := 0
  current_bet : Int := 0
  phase : GamePhase := GamePhase.WAITING
  active_player_index : Nat := 0
  dealer_index : Nat := 0
  small_blind : Int := 10
  big_blind : Int := 20
deriving DecidableEq, Repr

/-- TexasHoldemGame.add_player from src/models/game.py (lines 218-227):
reject when 9 players are already seated or the user id is already
present; otherwise assign the seat position and append. -/
def add_player (game : TexasHoldemGame) (player : Player) : Bool × TexasHoldemGame :=
  if 9 ≤ game.players.length then (false, game)
  else if game.players.any (fun p => p.user_id == player.user_id) then (false, game)
  else
    (true, { game with
      players := game.players ++ [{ player with position := game.players.length }] })

/-! ## State machine transition table (src/services/game_state_machine.py) -/

/-- StateTransition.can_transition from src/services/game_state_machine.py
(lines 18-30): the valid_transitions dictionary. -/
def can_transition (from_phase to_phase : GamePhase) : Bool :=
  let valid : List GamePhase :=
    match from_phase with
    | GamePhase.WAITING => [GamePhase.PRE_FLOP]
    | GamePhase.PRE_FLOP => [GamePhase.FLOP, GamePhase.SHOWDOWN]
    | GamePhase.FLOP => [GamePhase.TURN, GamePhase.SHOWDOWN]
    | GamePhase.TURN => [GamePhase.RIVER, GamePhase.SHOWDOWN]
    | GamePhase.RIVER => [GamePhase.SHOWDOWN]
    | GamePhase.SHOWDOWN => [GamePhase.FINISHED]
    | GamePhase.FINISHED => []
  valid.contains to_phase

/-! ## Hand comparison (src/services/hand_evaluator.py) -/

/-- Numeric value of the HandRank enum from src/services/hand_evaluator.py. -/
inductive HandRank
  | HIGH_CARD | ONE_PAIR | TWO_PAIR | THREE_OF_A_KIND | STRAIGHT
  | FLUSH | FULL_HOUSE | FOUR_OF_A_KIND | STRAIGHT_FLUSH | ROYAL_FLUSH
deriving DecidableEq, Repr, Fintype

/-- The .value of each HandRank enum member. -/
def HandRank.val : HandRank → Nat
  | HIGH_CARD => 1
  | ONE_PAIR => 2
  | TWO_PAIR => 3
  | THREE_OF_A_KIND => 4
  | STRAIGHT => 5
  | FLUSH => 6
  | FULL_HOUSE => 7
  | FOUR_OF_A_KIND => 8
  | STRAIGHT_FLUSH => 9
  | ROYAL_FLUSH => 10

/-- HandEvaluator._compare_values (lines 134-149): walk the zipped lists
and return the sign of the first difference; 0 when the common prefix is
equal (trailing elements of a longer list are ignored, as zip does). -/
def compare_values : List Nat → List Nat → Int
  | [], _ => 0
  | _ :: _, [] => 0
  | a :: as_, b :: bs =>
    if a > b then 1
    else if a < b then -1
    else compare_values as_ bs

/-- HandEvaluator.compare_hands (lines 151-171): compare enum values,
then tiebreak vectors. -/
def compare_hands (hand1 hand2 : HandRank × List Nat) : Int :=
  if hand1.1.val > hand2.1.val then 1
  else if hand1.1.val < hand2.1.val then -1
  else compare_values hand1.2 hand2.2

/-! ## Betting round manager (src/services/betting_round_manager.py) -/

/-- TexasHoldemGame.get_active_player (src/models/game.py lines 247-251):
the player at active_player_index when in bounds. -/
def get_active_player (game : TexasHoldemGame) : Option Player :=
  game.players[game.active_player_index]?

/-- The betting phases accepted by BettingRoundManager._can_player_act. -/
def betting_phases : List GamePhase :=
  [GamePhase.PRE_FLOP, GamePhase.FLOP, GamePhase.TURN, GamePhase.RIVER]

/-- BettingRoundManager._can_player_act (lines 122-135): not folded or
all-in, it is this player's turn, and the game is in a betting phase. -/
def can_player_act (game : TexasHoldemGame) (player : Player) : Bool :=
  if player.is_folded || player.is_all_in then false
  else
    match get_active_player game with
    | none => false
    | some active => active.user_id == player.user_id && betting_phases.contains game.phase

/-- The loop at the end of BettingRoundManager._handle_raise and
_handle_all_in: clear has_acted_this_round for every other player that is
neither folded nor all-in (players are identified by user id). -/
def reset_others_has_acted (players : List Player) (uid : Nat) : List Player :=
  players.map fun q =>
    if !(q.user_id == uid) && !q.is_folded && !q.is_all_in then
      { q with has_acted_this_round := false }
    else q

/-- Apply an update to the player at index i (the Python code mutates the
player object held in game.players). -/
def update_player (players : List Player) (i : Nat) (f : Player → Player) : List Player :=
  match players[i]? with
  | none => players
  | some p => players.set i (f p)

/-- BettingRoundManager._handle_fold (lines 178-182). -/
def handle_fold (game : TexasHoldemGame) (i : Nat) (_amount : Int) :
    Bool × TexasHoldemGame :=
  match game.players[i]? with
  | none => (false, game)
  | some player =>
    let p1 := { player with is_folded := true, last_action := some PlayerAction.FOLD }
    (true, { game with players := game.players.set i p1 })

/-- BettingRoundManager._handle_check (lines 184-191). -/
def handle_check (game : TexasHoldemGame) (i : Nat) (_amount : Int) :
    Bool × TexasHoldemGame :=
  match game.players[i]? with
  | none => (false, game)
  | some player =>
    if 0 < game.current_bet - player.current_bet then (false, game)
    else
      let p1 := { player with last_action := some PlayerAction.CHECK }
      (true, { game with players := game.players.set i p1 })

/-- BettingRoundManager._handle_call (lines 193-211). -/
def handle_call (game : TexasHoldemGame) (i : Nat) (_amount : Int) :
    Bool × TexasHoldemGame :=
  match game.players[i]? with
  | none => (false, game)
  | some player =>
    let call_amount := game.current_bet - player.current_bet
    if call_amount ≤ 0 then (false, game)
    else if player.chips < call_amount then (false, game)
    else
      let chips1 := player.chips - call_amount
      let p1 := { player with
        chips := chips1,
        current_bet := player.current_bet + call_amount,
        last_action := some PlayerAction.CALL,
        is_all_in := if chips1 == 0 then true else player.is_all_in }
      (true, { game with
        pot := game.pot + call_amount,
        players := game.players.set i p1 })

/-- BettingRoundManager._handle_raise (lines 213-245). -/
def handle_raise (game : TexasHoldemGame) (i : Nat) (raise_amount : Int) :
    Bool × TexasHoldemGame :=
  match game.players[i]? with
  | none => (false, game)
  | some player =>
    if raise_amount ≤ 0 then (false, game)
    else
      let call_amount := game.current_bet - player.current_bet
      let total_bet := call_amount + raise_amount
      if player.chips < total_bet then (false, game)
      else if raise_amount < game.big_blind then (false, game)
      else
        let chips1 := player.chips - total_bet
        let new_bet := player.current_bet + total_bet
        let p1 := { player with
          chips := chips1,
          current_bet := new_bet,
          last_action := some PlayerAction.RAISE,
          is_all_in := if chips1 == 0 then true else player.is_all_in }
        (true, { game with
          pot := game.pot + total_bet,
          current_bet := new_bet,
          players := reset_others_has_acted (game.players.set i p1) player.user_id })

/-- BettingRoundManager._handle_all_in (lines 247-269). -/
def handle_all_in (game : TexasHoldemGame) (i : Nat) (_amount : Int) :
    Bool × TexasHoldemGame :=
  match game.players[i]? with
  | none => (false, game)
  | some player =>
    if player.chips ≤ 0 then (false, game)
    else
      let all_in_amount := player.chips
      let new_bet := player.current_bet + all_in_amount
      let players1 := game.players.set i
        ({ player with
          chips := 0,
          current_bet := new_bet,
          is_all_in := true,
          last_action := some PlayerAction.ALL_IN })
      if game.current_bet < new_bet then
        (true, { game with
          pot := game.pot + all_in_amount,
          current_bet := new_bet,
          players := reset_others_has_acted players1 player.user_id })
      else
        (true, { game with
          pot := game.pot + all_in_amount,
          players := players1 })

/-- BettingRoundManager.process_action (lines 32-54): validate with
_can_player_act, dispatch to the action handler, and on success mark the
acting player as having acted this round.  The acting player is given by
an index into game.players. -/
def process_action (game : TexasHoldemGame) (i : Nat) (action : PlayerAction)
    (amount : Int) : Bool × TexasHoldemGame :=
  match game.players[i]? with
  | none => (false, game)
  | some player =>
    if !can_player_act game player then (false, game)
    else
      let result :=
        match action with
        | PlayerAction.FOLD => handle_fold game i amount
        | PlayerAction.CHECK => handle_check game i amount
        | PlayerAction.CALL => handle_call game i amount
        | PlayerAction.RAISE => handle_raise game i amount
        | PlayerAction.ALL_IN => handle_all_in game i amount
      if result.1 then
        let players1 := update_player result.2.players i
          (fun p => { p with has_acted_this_round := true })
        (true, { result.2 with players := players1 })
      else (false, result.2)

/-- BettingRoundManager.is_betting_round_complete (lines 70-90). -/
def is_betting_round_complete (game : TexasHoldemGame) : Bool :=
  let active_players := game.players.filter (fun p => !p.is_folded)
  if active_players.length ≤ 1 then true
  else
    let acting_players := active_players.filter (fun p => !p.is_all_in)
    if acting_players.length ≤ 1 then true
    else
      acting_players.all fun p =>
        p.has_acted_this_round && !(decide (p.current_bet < game.current_bet))

/-- The round-completion predicate exactly as claim C3 states it
(spec section 4.2): at most one non-folded player remains, or every
non-folded, non-all-in player has acted and has matched game.current_bet.
Stated from the spec's words, to be compared with
is_betting_round_complete. -/
def spec_round_complete (game : TexasHoldemGame) : Prop :=
  (game.players.filter (fun p => !p.is_folded)).length ≤ 1 ∨
  ∀ p ∈ (game.players.filter (fun p => !p.is_folded)).filter (fun p => !p.is_all_in),
    p.has_acted_this_round = true ∧ p.current_bet = game.current_bet

/-- A concrete betting-phase state: player 1 went all-in for 5 and player
2 has not acted yet.  is_betting_round_complete answers true here while
the C3 predicate is false. -/
def c3_game : TexasHoldemGame :=
  { players :=
      [{ user_id := 1, chips := 0, current_bet := 5, is_all_in := true,
         has_acted_this_round := true },
       { user_id := 2, chips := 10, current_bet := 0 }],
    pot := 5,
    current_bet := 5,
    phase := GamePhase.PRE_FLOP,
    active_player_index := 1 }

/-- A concrete betting-phase state with hands fully matched, used to
witness the amended C3 theorem. -/
def c3_witness_game : TexasHoldemGame :=
  { players :=
      [{ user_id := 1, chips := 90, current_bet := 10, has_acted_this_round := true },
       { user_id := 2, chips := 90, current_bet := 10, has_acted_this_round := true }],
    pot := 20,
    current_bet := 10,
    phase := GamePhase.FLOP }

/-- A concrete three-player pre-flop state used to witness the raise
theorem: the blinds are posted and player 1 (under the gun) acts. -/
def c4_witness_game : TexasHoldemGame :=
  { players :=
      [{ user_id := 1, chips := 100 },
       { user_id := 2, chips := 90, current_bet := 10, has_acted_this_round := true },
       { user_id := 3, chips := 80, current_bet := 20, has_acted_this_round := true }],
    pot := 30,
    current_bet := 20,
    phase := GamePhase.PRE_FLOP,
    active_player_index := 0,
    small_blind := 10,
    big_blind := 20 }

/-- A concrete three-player pre-flop state for the all-in witness:
player 1 has raised to 10, player 2 (to act) holds only 7 chips. -/
def c2_witness_game : TexasHoldemGame :=
  { players :=
      [{ user_id := 1, chips := 90, current_bet := 10, has_acted_this_round := true },
       { user_id := 2, chips := 7 },
       { user_id := 3, chips := 100 }],
    pot := 10,
    current_bet := 10,
    phase := GamePhase.PRE_FLOP,
    active_player_index := 1,
    small_blind := 5,
    big_blind := 10 }

/-! ## Side pots (src/services/game_engine.py, GameEngine._create_side_pots) -/

/-- One side pot as built by GameEngine._create_side_pots: an amount and
the eligible (contributing) players. -/
structure SidePot where
  amount : Int
  players : List Player
deriving DecidableEq, Repr

/-- Insert a value into an ascending duplicate-free list, keeping it
ascending and duplicate-free; folding this models Python's
sorted(set(...)). -/
def insertLevel (x : Int) : List Int → List Int
  | [] => [x]
  | y :: ys =>
    if x < y then x :: y :: ys
    else if x = y then y :: ys
    else y :: insertLevel x ys

/-- sorted(set(bets)) from GameEngine._create_side_pots line 1033. -/
def sorted_levels (l : List Int) : List Int := l.foldr insertLevel []

/-- The level loop of GameEngine._create_side_pots (lines 1036-1062):
walk the ascending contribution levels, skip non-positive levels, and
for each level emit a pot of (level − previous level) × number of
players contributing at least that level (previous level = the previous
entry of bet_levels, whether or not it produced a pot). -/
def build_level_pots (active : List Player) : List Int → Option Int → List SidePot
  | [], _ => []
  | level :: rest, prev =>
    if level ≤ 0 then build_level_pots active rest (some level)
    else
      let eligible := active.filter (fun p => decide (level ≤ p.current_bet))
      if eligible.isEmpty then build_level_pots active rest (some level)
      else
        let contribution := match prev with | none => level | some pl => level - pl
        let pot_amount := contribution * (eligible.length : Int)
        if 0 < pot_amount then
          { amount := pot_amount, players := eligible } ::
            build_level_pots active rest (some level)
        else build_level_pots active rest (some level)

/-- side_pots[-1]['amount'] += difference (line 1072). -/
def add_to_last : List SidePot → Int → List SidePot
  | [], _ => []
  | [p], d => [{ p with amount := p.amount + d }]
  | p :: q :: rest, d => p :: add_to_last (q :: rest) d

/-- Total of the side pot amounts. -/
def sum_amounts (pots : List SidePot) : Int := (pots.map SidePot.amount).sum

/-- GameEngine._create_side_pots (lines 1004-1083): single pot when at
most one non-folded player remains, when nobody is all-in, or when every
contribution is equal; otherwise per-level pots with the rounding
difference added to the last pot, falling back to a single main pot when
no level pot was built. -/
def create_side_pots (game : TexasHoldemGame) : List SidePot :=
  let active_players := game.players.filter (fun p => !p.is_folded)
  if active_players.length ≤ 1 then
    [{ amount := game.pot, players := active_players }]
  else
    let all_in_players := active_players.filter (fun p => p.is_all_in)
    if all_in_players.isEmpty then
      [{ amount := game.pot, players := active_players }]
    else
      let bet_levels := sorted_levels (active_players.map Player.current_bet)
      if bet_levels.length ≤ 1 then
        [{ amount := game.pot, players := active_players }]
      else
        let side_pots := build_level_pots active_players bet_levels none
        let total_calculated := sum_amounts side_pots
        let difference := game.pot - total_calculated
        let side_pots2 :=
          if total_calculated ≠ game.pot then
            (if side_pots ≠ [] ∧ difference ≠ 0 then add_to_last side_pots difference
             else side_pots)
          else side_pots
        if side_pots2.isEmpty then
          [{ amount := game.pot, players := active_players }]
        else side_pots2

/-- A concrete all-equal-contribution showdown state for the C1 witness:
three players all contributed 10, one of them all-in. -/
def c1_witness_game : TexasHoldemGame :=
  { players :=
      [{ user_id := 1, chips := 90, current_bet := 10, has_acted_this_round := true },
       { user_id := 2, chips := 0, current_bet := 10, is_all_in := true,
         has_acted_this_round := true },
       { user_id := 3, chips := 40, current_bet := 10, has_acted_this_round := true }],
    pot := 30,
    current_bet := 10,
    phase := GamePhase.SHOWDOWN }

/-! ## Pot distribution (src/services/game_state_machine.py,
GameStateMachine._distribute_side_pots, lines 240-278) -/

/-- One step of the winner scan: ties are appended, a strictly better
hand replaces the running winners. -/
def winners_step (st : List Player × HandRank × List Nat)
    (ph : Player × HandRank × List Nat) : List Player × HandRank × List Nat :=
  let c := compare_hands ph.2 st.2
  if c = 0 then (st.1 ++ [ph.1], st.2)
  else if 0 < c then ([ph.1], ph.2)
  else st

/-- The winner scan of _distribute_side_pots (lines 256-266): start from
the first eligible hand and fold over the rest. -/
def pot_winners (eligible_hands : List (Player × HandRank × List Nat)) :
    List Player :=
  match eligible_hands with
  | [] => []
  | h0 :: rest => (rest.foldl winners_step ([h0.1], h0.2)).1

/-- winnings = pot_per_winner + (1 if i < remainder else 0)
(lines 269-273), with Python floor division and modulo. -/
def pot_share (amount : Int) (n : Nat) (j : Nat) : Int :=
  amount / (n : Int) + if (j : Int) < amount % (n : Int) then 1 else 0

/-- The per-pot distribution loop (lines 268-276): pair each winner, in
list order, with its share. -/
def distribute_one_pot (amount : Int)
    (eligible_hands : List (Player × HandRank × List Nat)) :
    List (Int × Player) :=
  let ws := pot_winners eligible_hands
  ws.enum.map (fun iw => (pot_share amount ws.length iw.1, iw.2))

/-- Three players with identical one-pair hands contest a 7-chip pot;
used to witness the distribution theorem. -/
def c9_witness_hands : List (Player × HandRank × List Nat) :=
  [({ user_id := 1, chips := 0 }, HandRank.ONE_PAIR, [5, 9, 8, 7]),
   ({ user_id := 2, chips := 0 }, HandRank.ONE_PAIR, [5, 9, 8, 7]),
   ({ user_id := 3, chips := 0 }, HandRank.ONE_PAIR, [5, 9, 8, 7])]

/-! ## Blinds, street reset and the betting step relation
(src/services/game_state_machine.py lines 280-361) -/

/-- GameStateMachine._post_blinds (lines 280-312): heads-up the dealer
posts the small blind, otherwise the two seats after the dealer post;
each posts min(blind, stack) and is marked all-in when emptied;
game.current_bet becomes the big-blind amount.  (Python would raise on
an out-of-range index; the model returns the game unchanged there, a
case the step relation never exercises.) -/
def post_blinds (game : TexasHoldemGame) : TexasHoldemGame :=
  let player_count := game.players.length
  let small_blind_idx := if player_count == 2 then game.dealer_index
    else (game.dealer_index + 1) % player_count
  let big_blind_idx := if player_count == 2 then (game.dealer_index + 1) % 2
    else (game.dealer_index + 2) % player_count
  let g1 := match game.players[small_blind_idx]? with
    | none => game
    | some sb_player =>
      let sb_amount := min game.small_blind sb_player.chips
      { game with
        pot := game.pot + sb_amount,
        players := game.players.set small_blind_idx
          { sb_player with
            chips := sb_player.chips - sb_amount,
            current_bet := sb_amount,
            is_all_in := if sb_player.chips - sb_amount == 0 then true
              else sb_player.is_all_in } }
  match g1.players[big_blind_idx]? with
  | none => g1
  | some bb_player =>
    let bb_amount := min game.big_blind bb_player.chips
    { g1 with
      pot := g1.pot + bb_amount,
      current_bet := bb_amount,
      players := g1.players.set big_blind_idx
        { bb_player with
          chips := bb_player.chips - bb_amount,
          current_bet := bb_amount,
          is_all_in := if bb_player.chips - bb_amount == 0 then true
            else bb_player.is_all_in } }

/-- GameStateMachine._reset_betting_round (lines 355-361). -/
def reset_betting_round (game : TexasHoldemGame) : TexasHoldemGame :=
  { game with
    current_bet := 0,
    players := game.players.map fun p =>
      { p with current_bet := 0, has_acted_this_round := false, last_action := none } }

/-- Total stack behind all seats. -/
def sum_chips (players : List Player) : Int := (players.map Player.chips).sum

/-- Total of the per-round bets of all seats. -/
def sum_bets (players : List Player) : Int := (players.map Player.current_bet).sum

/-- The chips visible at the table: pot plus all stacks.  Every betting
step preserves this quantity. -/
def chip_total (game : TexasHoldemGame) : Int := game.pot + sum_chips game.players

/-- One betting-phase mutation of a hand: posting the blinds, a player
action processed by the betting round manager (successful or not), or
the street reset that precedes a new betting round. -/
inductive Step : TexasHoldemGame → TexasHoldemGame → Prop
  | action (g : TexasHoldemGame) (i : Nat) (a : PlayerAction) (amount : Int) :
      Step g (process_action g i a amount).2
  | blinds (g : TexasHoldemGame) : Step g (post_blinds g)
  | reset (g : TexasHoldemGame) : Step g (reset_betting_round g)

/-- States reachable from a hand start through betting steps. -/
inductive Reachable : TexasHoldemGame → TexasHoldemGame → Prop
  | refl (g : TexasHoldemGame) : Reachable g g
  | tail {g0 g1 g2 : TexasHoldemGame} :
      Reachable g0 g1 → Step g1 g2 → Reachable g0 g2

/-- A fresh two-player hand about to post blinds 10/20. -/
def c5_start_game : TexasHoldemGame :=
  { players := [{ user_id := 1, chips := 100 }, { user_id := 2, chips := 100 }],
    pot := 0,
    current_bet := 0,
    phase := GamePhase.PRE_FLOP,
    dealer_index := 0,
    small_blind := 10,
    big_blind := 20 }

/-! ## Five-card evaluation (src/services/hand_evaluator.py,
HandEvaluator._evaluate_five_cards, lines 61-115) -/

/-- sorted(values, reverse=True): descending insertion sort.  Sorting the
mapped rank values equals mapping the values of the cards sorted by rank,
since a descending-sorted list is determined by its multiset. -/
def sortDesc (l : List Nat) : List Nat :=
  List.insertionSort (fun a b => b ≤ a) l

/-- First-occurrence-order deduplication with an explicit seen set; this
is the iteration order of Counter(values).items() (Python dicts preserve
insertion order). -/
def uniqueInOrderAux (seen : List Nat) : List Nat → List Nat
  | [] => []
  | x :: xs =>
    if x ∈ seen then uniqueInOrderAux seen xs
    else x :: uniqueInOrderAux (x :: seen) xs

/-- The distinct values of the hand in first-occurrence order. -/
def uniqueInOrder (l : List Nat) : List Nat := uniqueInOrderAux [] l

/-- The adjacent-difference check of HandEvaluator._is_straight
(lines 127-130). -/
def consecutive_desc : List Nat → Bool
  | a :: b :: rest => (a - b == 1) && consecutive_desc (b :: rest)
  | _ => true

/-- HandEvaluator._is_straight (lines 117-132): five distinct values
descending by exactly one each step. -/
def is_straight (values : List Nat) : Bool :=
  if values.length ≠ 5 then false
  else
    let unique_values := sortDesc (uniqueInOrder values)
    if unique_values.length ≠ 5 then false
    else consecutive_desc unique_values

/-- len(set(suits)) == 1 (line 74): all five suits equal (false for an
empty hand, whose suit set has size 0). -/
def flush_check (suits : List Suit) : Bool :=
  match suits with
  | [] => false
  | s :: rest => rest.all (fun t => t == s)

/-- HandEvaluator._evaluate_five_cards (lines 61-115).  values0 is the
descending rank list, counts the descending multiplicities; the wheel
A-5-4-3-2 rewrites values to [5,4,3,2,1] before the rank dispatch.  The
Python expression [v for v,c in value_counts.items() if c == k][0] is
the head of the first-occurrence-order distinct values filtered by
count. -/
def evaluate_five_cards (cards : List Card) : HandRank × List Nat :=
  let values0 := sortDesc (cards.map Card.value)
  let suits := cards.map Card.suit
  let uniq := uniqueInOrder values0
  let counts := sortDesc (uniq.map (fun v => values0.count v))
  let is_flush : Bool := flush_check suits
  let is_wheel : Bool := values0 == [14, 5, 4, 3, 2]
  let straight1 : Bool := if is_wheel then true else is_straight values0
  let values1 : List Nat := if is_wheel then [5, 4, 3, 2, 1] else values0
  if straight1 && is_flush then
    if values1 == [14, 13, 12, 11, 10] then (HandRank.ROYAL_FLUSH, values1)
    else (HandRank.STRAIGHT_FLUSH, [values1.headD 0])
  else if counts == [4, 1] then
    (HandRank.FOUR_OF_A_KIND,
      [(uniq.filter (fun v => values0.count v == 4)).headD 0,
       (uniq.filter (fun v => values0.count v == 1)).headD 0])
  else if counts == [3, 2] then
    (HandRank.FULL_HOUSE,
      [(uniq.filter (fun v => values0.count v == 3)).headD 0,
       (uniq.filter (fun v => values0.count v == 2)).headD 0])
  else if is_flush then (HandRank.FLUSH, values1)
  else if straight1 then (HandRank.STRAIGHT, [values1.headD 0])
  else if counts == [3, 1, 1] then
    (HandRank.THREE_OF_A_KIND,
      (uniq.filter (fun v => values0.count v == 3)).headD 0 ::
        sortDesc (uniq.filter (fun v => values0.count v == 1)))
  else if counts == [2, 2, 1] then
    (HandRank.TWO_PAIR,
      sortDesc (uniq.filter (fun v => values0.count v == 2)) ++
        [(uniq.filter (fun v => values0.count v == 1)).headD 0])
  else if counts == [2, 1, 1, 1] then
    (HandRank.ONE_PAIR,
      (uniq.filter (fun v => values0.count v == 2)).headD 0 ::
        sortDesc (uniq.filter (fun v => values0.count v == 1)))
  else (HandRank.HIGH_CARD, values1)

/-- Aces full of nines, used to witness the tiebreak-format theorem. -/
def c6_witness_cards : List Card :=
  [{ suit := Suit.SPADES, value := 14 }, { suit := Suit.HEARTS, value := 14 },
   { suit := Suit.CLUBS, value := 14 }, { suit := Suit.SPADES, value := 9 },
   { suit := Suit.HEARTS, value := 9 }]

lemma compare_values_self (v : List Nat) : compare_values v v = 0 := by
  induction v with
  | nil => rfl
  | cons a as_ ih => simp [compare_values, ih]

lemma compare_values_antisymm (v w : List Nat) :
    compare_values v w = -compare_values w v := by
  induction v generalizing w with
  | nil => cases w <;> simp [compare_values]
  | cons a as_ ih =>
    cases w with
    | nil => simp [compare_values]
    | cons b bs =>
      by_cases hab : a > b
      · have : ¬ b > a := by omega
        simp [compare_values, hab, this, show b < a from hab]
      · by_cases hba : a < b
        · simp [compare_values, hab, hba, show b > a from hba]
        · have h1 : ¬ b > a := by omega
          have h2 : ¬ b < a := by omega
          simp [compare_values, hab, hba, h1, h2, ih]

/-- C7: compare_hands is antisymmetric — compare(a,b) equals the negation
of compare(b,a) for every pair of evaluated hands, and compare(a,a) = 0
for every hand. -/
theorem claim7_compare_hands_antisymm :
    (∀ a b : HandRank × List Nat, compare_hands a b = -compare_hands b a) ∧
    (∀ a : HandRank × List Nat, compare_hands a a = 0) := by
  constructor
  · intro a b
    by_cases h1 : a.1.val > b.1.val
    · have : ¬ b.1.val > a.1.val := by omega
      simp [compare_hands, h1, this, show b.1.val < a.1.val from h1]
    · by_cases h2 : a.1.val < b.1.val
      · simp [compare_hands, h1, h2, show b.1.val > a.1.val from h2]
      · have h3 : ¬ b.1.val > a.1.val := by omega
        have h4 : ¬ b.1.val < a.1.val := by omega
        simp only [compare_hands, h1, h2, h3, h4, if_false]
        exact compare_values_antisymm a.2 b.2
  · intro a
    simp [compare_hands, compare_values_self]

/-- C8: the transition relation admits exactly the linear order
WAITING → PRE_FLOP → FLOP → TURN → RIVER → SHOWDOWN → FINISHED together
with early entry into SHOWDOWN from the betting phases PRE_FLOP, FLOP and
TURN; in particular FINISHED has no successor and WAITING only reaches
PRE_FLOP. -/
theorem claim8_phase_transitions :
    ∀ a b : GamePhase, can_transition a b = true ↔
      ((a = GamePhase.WAITING ∧ b = GamePhase.PRE_FLOP) ∨
       (a = GamePhase.PRE_FLOP ∧ b = GamePhase.FLOP) ∨
       (a = GamePhase.FLOP ∧ b = GamePhase.TURN) ∨
       (a = GamePhase.TURN ∧ b = GamePhase.RIVER) ∨
       (a = GamePhase.RIVER ∧ b = GamePhase.SHOWDOWN) ∨
       (a = GamePhase.SHOWDOWN ∧ b = GamePhase.FINISHED) ∨
       ((a = GamePhase.PRE_FLOP ∨ a = GamePhase.FLOP ∨ a = GamePhase.TURN) ∧
        b = GamePhase.SHOWDOWN)) := by
  decide

/-- C10: add_player fails and leaves the game unchanged when the table is
full (9 players) or the user id is already seated; otherwise it succeeds
and appends the player with position equal to the previous seat count. -/
theorem claim10_add_player (game : TexasHoldemGame) (player : Player) :
    (9 ≤ game.players.length ∨ (∃ p ∈ game.players, p.user_id = player.user_id) →
      add_player game player = (false, game)) ∧
    (game.players.length < 9 ∧ (∀ p ∈ game.players, p.user_id ≠ player.user_id) →
      add_player game player =
        (true, { game with
          players := game.players ++ [{ player with position := game.players.length }] })) := by
  constructor
  · rintro (hfull | ⟨p, hp, hid⟩)
    · simp [add_player, hfull]
    · by_cases hfull : 9 ≤ game.players.length
      · simp [add_player, hfull]
      · have hany : game.players.any (fun q => q.user_id == player.user_id) = true := by
          simp only [List.any_eq_true]
          exact ⟨p, hp, by simpa using hid⟩
        simp [add_player, hfull, hany]
  · rintro ⟨hlt, hids⟩
    have hfull : ¬ 9 ≤ game.players.length := by omega
    have hany : ¬ game.players.any (fun q => q.user_id == player.user_id) = true := by
      simp only [List.any_eq_true]
      rintro ⟨q, hq, hbeq⟩
      exact hids q hq (by simpa using hbeq)
    simp [add_player, hfull, hany]

/-- Witness for C10 at a concrete game and player. -/
theorem claim10_add_player_witness :
    (({ players := [{ user_id := 1, chips := 100 }] } : TexasHoldemGame).players.length < 9 ∧
      (∀ p ∈ ({ players := [{ user_id := 1, chips := 100 }] } : TexasHoldemGame).players,
        p.user_id ≠ (2 : Nat))) ∧
    add_player { players := [{ user_id := 1, chips := 100 }] } { user_id := 2, chips := 50 } =
      (true, { players := [{ user_id := 1, chips := 100 },
                           { user_id := 2, chips := 50, position := 1 }] }) := by
  refine ⟨by decide, ?_⟩
  have h := (claim10_add_player { players := [{ user_id := 1, chips := 100 }] }
    { user_id := 2, chips := 50 }).2 (by decide)
  simpa using h

/-- C3 counterexample: in c3_game (player 1 all-in for 5, player 2 not
yet acted, two non-folded players) is_betting_round_complete returns
true although the predicate claimed by C3 is false, because the code has
an extra early exit when at most one non-folded, non-all-in player
remains. -/
theorem claim3_counterexample :
    is_betting_round_complete c3_game = true ∧ ¬ spec_round_complete c3_game := by
  constructor
  · decide
  · unfold spec_round_complete
    decide

/-- C3 amended: assuming no player's current_bet exceeds
game.current_bet (true of every reachable state), the round-completion
predicate returns true iff at most one non-folded player remains, or at
most one non-folded non-all-in player remains, or every non-folded
non-all-in player has acted and has current_bet equal to
game.current_bet. -/
theorem claim3_round_complete_amended (game : TexasHoldemGame)
    (hb : ∀ p ∈ game.players, p.current_bet ≤ game.current_bet) :
    is_betting_round_complete game = true ↔
      ((game.players.filter (fun p => !p.is_folded)).length ≤ 1 ∨
       ((game.players.filter (fun p => !p.is_folded)).filter
          (fun p => !p.is_all_in)).length ≤ 1 ∨
       ∀ p ∈ (game.players.filter (fun p => !p.is_folded)).filter
          (fun p => !p.is_all_in),
         p.has_acted_this_round = true ∧ p.current_bet = game.current_bet) := by
  unfold is_betting_round_complete
  by_cases h1 : (game.players.filter (fun p => !p.is_folded)).length ≤ 1
  · rw [if_pos h1]
    exact ⟨fun _ => Or.inl h1, fun _ => rfl⟩
  · rw [if_neg h1]
    by_cases h2 : ((game.players.filter (fun p => !p.is_folded)).filter
        (fun p => !p.is_all_in)).length ≤ 1
    · rw [if_pos h2]
      exact ⟨fun _ => Or.inr (Or.inl h2), fun _ => rfl⟩
    · rw [if_neg h2, List.all_eq_true]
      constructor
      · intro h
        refine Or.inr (Or.inr fun p hp => ?_)
        have hmem : p ∈ game.players := by
          have hnf := List.mem_filter.mp hp
          exact (List.mem_filter.mp hnf.1).1
        have hple := hb p hmem
        have h3 := h p hp
        simp only [Bool.and_eq_true, Bool.not_eq_true', decide_eq_false_iff_not,
          not_lt] at h3
        exact ⟨h3.1, le_antisymm hple h3.2⟩
      · rintro (hlen | hlen | h) p hp
        · exact absurd hlen h1
        · exact absurd hlen h2
        · have h3 := h p hp
          simp only [Bool.and_eq_true, Bool.not_eq_true', decide_eq_false_iff_not,
            not_lt]
          exact ⟨h3.1, le_of_eq h3.2.symm⟩

/-- Witness for the amended C3 theorem at a concrete matched-bets state. -/
theorem claim3_round_complete_amended_witness :
    (∀ p ∈ c3_witness_game.players,
      p.current_bet ≤ c3_witness_game.current_bet) ∧
    (is_betting_round_complete c3_witness_game = true ↔
      ((c3_witness_game.players.filter (fun p => !p.is_folded)).length ≤ 1 ∨
       ((c3_witness_game.players.filter (fun p => !p.is_folded)).filter
          (fun p => !p.is_all_in)).length ≤ 1 ∨
       ∀ p ∈ (c3_witness_game.players.filter (fun p => !p.is_folded)).filter
          (fun p => !p.is_all_in),
         p.has_acted_this_round = true ∧
           p.current_bet = c3_witness_game.current_bet)) :=
  ⟨by decide, claim3_round_complete_amended c3_witness_game (by decide)⟩

lemma reset_others_getElem? (l : List Player) (uid : Nat) (j : Nat) :
    (reset_others_has_acted l uid)[j]? = l[j]?.map fun q =>
      if !(q.user_id == uid) && !q.is_folded && !q.is_all_in then
        { q with has_acted_this_round := false }
      else q := by
  simp [reset_others_has_acted, List.getElem?_map]

lemma length_reset_others (l : List Player) (uid : Nat) :
    (reset_others_has_acted l uid).length = l.length := by
  simp [reset_others_has_acted]

lemma can_player_act_of_active (game : TexasHoldemGame) (p : Player)
    (hp : game.players[game.active_player_index]? = some p)
    (hnf : p.is_folded = false) (hna : p.is_all_in = false)
    (hphase : betting_phases.contains game.phase = true) :
    can_player_act game p = true := by
  have hmem : game.phase ∈ betting_phases := by simpa using hphase
  unfold can_player_act get_active_player
  rw [hp]
  simp [hnf, hna, hmem]

lemma getElem?_set_self {α : Type} (l : List α) (i : Nat) (a : α)
    (h : i < l.length) : (l.set i a)[i]? = some a := by
  simp [List.getElem?_set, h]

lemma getElem?_set_ne {α : Type} (l : List α) (i j : Nat) (a : α)
    (h : j ≠ i) : (l.set i a)[j]? = l[j]? := by
  rw [List.getElem?_set, if_neg (fun hh => h hh.symm)]

/-- C4: a raise of delta by the active player succeeds exactly when
delta is at least the big blind and the required total
(game.current_bet − player.current_bet) + delta fits in the stack; on
success the raiser's total bet becomes the new game.current_bet and
every other non-folded, non-all-in player's has-acted flag is cleared,
while folded or all-in players are untouched.  Hypotheses: the acting
player is the active player in a betting phase, the big blind is
positive, and seated user ids are distinct. -/
theorem claim4_raise (game : TexasHoldemGame) (p : Player) (delta : Int)
    (hp : game.players[game.active_player_index]? = some p)
    (hnf : p.is_folded = false) (hna : p.is_all_in = false)
    (hphase : betting_phases.contains game.phase = true)
    (hbb : 0 < game.big_blind)
    (hids : game.players.Pairwise fun a b => a.user_id ≠ b.user_id) :
    ((process_action game game.active_player_index PlayerAction.RAISE delta).1 = true ↔
      game.big_blind ≤ delta ∧
        (game.current_bet - p.current_bet) + delta ≤ p.chips) ∧
    ((process_action game game.active_player_index PlayerAction.RAISE delta).1 = true →
      (process_action game game.active_player_index PlayerAction.RAISE delta).2.current_bet
          = p.current_bet + ((game.current_bet - p.current_bet) + delta) ∧
      (process_action game game.active_player_index
          PlayerAction.RAISE delta).2.players[game.active_player_index]? =
        some { p with
          chips := p.chips - ((game.current_bet - p.current_bet) + delta),
          current_bet := p.current_bet + ((game.current_bet - p.current_bet) + delta),
          last_action := some PlayerAction.RAISE,
          is_all_in := if p.chips - ((game.current_bet - p.current_bet) + delta) == 0
            then true else p.is_all_in,
          has_acted_this_round := true } ∧
      ∀ j q, j ≠ game.active_player_index → game.players[j]? = some q →
        (process_action game game.active_player_index
            PlayerAction.RAISE delta).2.players[j]? =
          some (if q.is_folded = false ∧ q.is_all_in = false
            then { q with has_acted_this_round := false } else q)) := by
  have hact := can_player_act_of_active game p hp hnf hna hphase
  obtain ⟨hi, hgi⟩ := List.getElem?_eq_some.mp hp
  have hids' : ∀ j q, game.players[j]? = some q → j ≠ game.active_player_index →
      q.user_id ≠ p.user_id := by
    intro j q hq hj
    obtain ⟨hjl, hje⟩ := List.getElem?_eq_some.mp hq
    rw [List.pairwise_iff_getElem] at hids
    rcases Nat.lt_or_ge j game.active_player_index with hlt | hge
    · rw [← hje, ← hgi]
      exact hids j game.active_player_index hjl hi hlt
    · have hgt : game.active_player_index < j := lt_of_le_of_ne hge (fun e => hj e.symm)
      rw [← hje, ← hgi]
      exact (hids game.active_player_index j hi hjl hgt).symm
  by_cases hd0 : delta ≤ 0
  · have hres : process_action game game.active_player_index PlayerAction.RAISE delta
        = (false, game) := by
      simp [process_action, handle_raise, hp, hact, hd0]
    rw [hres]
    refine ⟨⟨fun h => by simp at h, fun h => ?_⟩, fun h => by simp at h⟩
    exact absurd h.1 (by omega)
  · by_cases hch : p.chips < (game.current_bet - p.current_bet) + delta
    · have hres : process_action game game.active_player_index PlayerAction.RAISE delta
          = (false, game) := by
        simp [process_action, handle_raise, hp, hact, hd0, hch]
      rw [hres]
      refine ⟨⟨fun h => by simp at h, fun h => ?_⟩, fun h => by simp at h⟩
      exact absurd h.2 (by omega)
    · by_cases hlt : delta < game.big_blind
      · have hres : process_action game game.active_player_index PlayerAction.RAISE delta
            = (false, game) := by
          simp [process_action, handle_raise, hp, hact, hd0, hch, hlt]
        rw [hres]
        refine ⟨⟨fun h => by simp at h, fun h => ?_⟩, fun h => by simp at h⟩
        exact absurd h.1 (by omega)
      · have hres : process_action game game.active_player_index PlayerAction.RAISE delta
            = (true, { game with
              pot := game.pot + ((game.current_bet - p.current_bet) + delta),
              current_bet := p.current_bet + ((game.current_bet - p.current_bet) + delta),
              players := (reset_others_has_acted
                (game.players.set game.active_player_index
                  { p with
                    chips := p.chips - ((game.current_bet - p.current_bet) + delta),
                    current_bet :=
                      p.current_bet + ((game.current_bet - p.current_bet) + delta),
                    last_action := some PlayerAction.RAISE,
                    is_all_in :=
                      if p.chips - ((game.current_bet - p.current_bet) + delta) == 0
                        then true else p.is_all_in })
                p.user_id).set game.active_player_index
                  { p with
                    chips := p.chips - ((game.current_bet - p.current_bet) + delta),
                    current_bet :=
                      p.current_bet + ((game.current_bet - p.current_bet) + delta),
                    last_action := some PlayerAction.RAISE,
                    is_all_in :=
                      if p.chips - ((game.current_bet - p.current_bet) + delta) == 0
                        then true else p.is_all_in,
                    has_acted_this_round := true } }) := by
          simp [process_action, handle_raise, update_player, hp, hact, hd0, hch,
            hlt, reset_others_getElem?, getElem?_set_self _ _ _ hi]
        have hplayers : (process_action game game.active_player_index
            PlayerAction.RAISE delta).2.players =
            (reset_others_has_acted
                (game.players.set game.active_player_index
                  { p with
                    chips := p.chips - ((game.current_bet - p.current_bet) + delta),
                    current_bet :=
                      p.current_bet + ((game.current_bet - p.current_bet) + delta),
                    last_action := some PlayerAction.RAISE,
                    is_all_in :=
                      if p.chips - ((game.current_bet - p.current_bet) + delta) == 0
                        then true else p.is_all_in })
                p.user_id).set game.active_player_index
                  { p with
                    chips := p.chips - ((game.current_bet - p.current_bet) + delta),
                    current_bet :=
                      p.current_bet + ((game.current_bet - p.current_bet) + delta),
                    last_action := some PlayerAction.RAISE,
                    is_all_in :=
                      if p.chips - ((game.current_bet - p.current_bet) + delta) == 0
                        then true else p.is_all_in,
                    has_acted_this_round := true } := by
          rw [hres]
        refine ⟨⟨fun _ => ⟨by omega, by omega⟩, fun _ => by rw [hres]⟩,
          fun _ => ⟨by rw [hres], ?_, ?_⟩⟩
        · rw [hplayers]
          apply getElem?_set_self
          rw [length_reset_others, List.length_set]
          exact hi
        · intro j q hj hq
          rw [hplayers, getElem?_set_ne _ _ _ _ hj, reset_others_getElem?,
            getElem?_set_ne _ _ _ _ hj, hq]
          have huid : (q.user_id == p.user_id) = false := by
            simpa using hids' j q hq hj
          simp only [Option.map_some', huid, Bool.not_false, Bool.true_and,
            Option.some.injEq]
          cases hf : q.is_folded <;> cases ha : q.is_all_in <;> simp

/-- Witness for C4: in the concrete three-player pre-flop state, the
under-the-gun player raises by exactly the big blind and the action
succeeds. -/
theorem claim4_raise_witness :
    c4_witness_game.players[c4_witness_game.active_player_index]? =
      some { user_id := 1, chips := 100 } ∧
    (process_action c4_witness_game c4_witness_game.active_player_index
      PlayerAction.RAISE 20).1 = true :=
  ⟨by decide,
    (claim4_raise c4_witness_game { user_id := 1, chips := 100 } 20 (by decide)
      (by decide) (by decide) (by decide) (by decide) (by decide)).1.mpr (by decide)⟩

/-- C2: a legal all-in by the active player always succeeds: the whole
stack is committed (chips become 0, current_bet grows by the stack, the
pot grows by the stack) and the player is marked all-in.  When the
resulting total bet exceeds game.current_bet the bet level is raised and
every other non-folded, non-all-in player's has-acted flag is cleared
(the action reopens); otherwise game.current_bet and every other
player's state are unchanged (the action does not reopen). -/
theorem claim2_all_in (game : TexasHoldemGame) (p : Player)
    (hp : game.players[game.active_player_index]? = some p)
    (hnf : p.is_folded = false) (hna : p.is_all_in = false)
    (hphase : betting_phases.contains game.phase = true)
    (hchips : 0 < p.chips)
    (hids : game.players.Pairwise fun a b => a.user_id ≠ b.user_id) :
    (process_action game game.active_player_index PlayerAction.ALL_IN 0).1 = true ∧
    (process_action game game.active_player_index
        PlayerAction.ALL_IN 0).2.players[game.active_player_index]? =
      some { p with
        chips := 0,
        current_bet := p.current_bet + p.chips,
        is_all_in := true,
        last_action := some PlayerAction.ALL_IN,
        has_acted_this_round := true } ∧
    (process_action game game.active_player_index PlayerAction.ALL_IN 0).2.pot =
      game.pot + p.chips ∧
    (game.current_bet < p.current_bet + p.chips →
      (process_action game game.active_player_index
          PlayerAction.ALL_IN 0).2.current_bet = p.current_bet + p.chips ∧
      ∀ j q, j ≠ game.active_player_index → game.players[j]? = some q →
        (process_action game game.active_player_index
            PlayerAction.ALL_IN 0).2.players[j]? =
          some (if q.is_folded = false ∧ q.is_all_in = false
            then { q with has_acted_this_round := false } else q)) ∧
    (¬ game.current_bet < p.current_bet + p.chips →
      (process_action game game.active_player_index
          PlayerAction.ALL_IN 0).2.current_bet = game.current_bet ∧
      ∀ j q, j ≠ game.active_player_index → game.players[j]? = some q →
        (process_action game game.active_player_index
            PlayerAction.ALL_IN 0).2.players[j]? = some q) := by
  have hact := can_player_act_of_active game p hp hnf hna hphase
  obtain ⟨hi, hgi⟩ := List.getElem?_eq_some.mp hp
  have hids' : ∀ j q, game.players[j]? = some q → j ≠ game.active_player_index →
      q.user_id ≠ p.user_id := by
    intro j q hq hj
    obtain ⟨hjl, hje⟩ := List.getElem?_eq_some.mp hq
    rw [List.pairwise_iff_getElem] at hids
    rcases Nat.lt_or_ge j game.active_player_index with hlt | hge
    · rw [← hje, ← hgi]
      exact hids j game.active_player_index hjl hi hlt
    · have hgt : game.active_player_index < j := lt_of_le_of_ne hge (fun e => hj e.symm)
      rw [← hje, ← hgi]
      exact (hids game.active_player_index j hi hjl hgt).symm
  have hch0 : ¬ p.chips ≤ 0 := by omega
  by_cases hgt : game.current_bet < p.current_bet + p.chips
  · have hres : process_action game game.active_player_index PlayerAction.ALL_IN 0
        = (true, { game with
          pot := game.pot + p.chips,
          current_bet := p.current_bet + p.chips,
          players := (reset_others_has_acted
            (game.players.set game.active_player_index
              { p with
                chips := 0,
                current_bet := p.current_bet + p.chips,
                is_all_in := true,
                last_action := some PlayerAction.ALL_IN })
            p.user_id).set game.active_player_index
              { p with
                chips := 0,
                current_bet := p.current_bet + p.chips,
                is_all_in := true,
                last_action := some PlayerAction.ALL_IN,
                has_acted_this_round := true } }) := by
      simp [process_action, handle_all_in, update_player, hp, hact, hch0, hgt,
        reset_others_getElem?, getElem?_set_self _ _ _ hi]
    have hplayers : (process_action game game.active_player_index
        PlayerAction.ALL_IN 0).2.players =
        (reset_others_has_acted
          (game.players.set game.active_player_index
            { p with
              chips := 0,
              current_bet := p.current_bet + p.chips,
              is_all_in := true,
              last_action := some PlayerAction.ALL_IN })
          p.user_id).set game.active_player_index
            { p with
              chips := 0,
              current_bet := p.current_bet + p.chips,
              is_all_in := true,
              last_action := some PlayerAction.ALL_IN,
              has_acted_this_round := true } := by
      rw [hres]
    refine ⟨by rw [hres], ?_, by rw [hres],
      fun _ => ⟨by rw [hres], ?_⟩, fun h => absurd hgt h⟩
    · rw [hplayers]
      apply getElem?_set_self
      rw [length_reset_others, List.length_set]
      exact hi
    · intro j q hj hq
      rw [hplayers, getElem?_set_ne _ _ _ _ hj, reset_others_getElem?,
        getElem?_set_ne _ _ _ _ hj, hq]
      have huid : (q.user_id == p.user_id) = false := by
        simpa using hids' j q hq hj
      simp only [Option.map_some', huid, Bool.not_false, Bool.true_and,
        Option.some.injEq]
      cases hf : q.is_folded <;> cases ha : q.is_all_in <;> simp
  · have hres : process_action game game.active_player_index PlayerAction.ALL_IN 0
        = (true, { game with
          pot := game.pot + p.chips,
          players := (game.players.set game.active_player_index
            { p with
              chips := 0,
              current_bet := p.current_bet + p.chips,
              is_all_in := true,
              last_action := some PlayerAction.ALL_IN }).set game.active_player_index
              { p with
                chips := 0,
                current_bet := p.current_bet + p.chips,
                is_all_in := true,
                last_action := some PlayerAction.ALL_IN,
                has_acted_this_round := true } }) := by
      simp [process_action, handle_all_in, update_player, hp, hact, hch0, hgt,
        getElem?_set_self _ _ _ hi]
    have hplayers : (process_action game game.active_player_index
        PlayerAction.ALL_IN 0).2.players =
        (game.players.set game.active_player_index
          { p with
            chips := 0,
            current_bet := p.current_bet + p.chips,
            is_all_in := true,
            last_action := some PlayerAction.ALL_IN }).set game.active_player_index
            { p with
              chips := 0,
              current_bet := p.current_bet + p.chips,
              is_all_in := true,
              last_action := some PlayerAction.ALL_IN,
              has_acted_this_round := true } := by
      rw [hres]
    refine ⟨by rw [hres], ?_, by rw [hres], fun h => absurd h hgt,
      fun _ => ⟨by rw [hres], ?_⟩⟩
    · rw [hplayers]
      apply getElem?_set_self
      rw [List.length_set]
      exact hi
    · intro j q hj hq
      rw [hplayers, getElem?_set_ne _ _ _ _ hj, getElem?_set_ne _ _ _ _ hj, hq]

/-- Witness for C2: the spec's 3-way vignette — with the bet at 10,
player 2 goes all-in for 7 (< 10): the action succeeds, does not change
game.current_bet, and leaves player 1's has-acted flag alone. -/
theorem claim2_all_in_witness :
    (0 : Int) < 7 ∧
    ((process_action c2_witness_game c2_witness_game.active_player_index
        PlayerAction.ALL_IN 0).2.current_bet = c2_witness_game.current_bet ∧
      ∀ j q, j ≠ c2_witness_game.active_player_index →
        c2_witness_game.players[j]? = some q →
        (process_action c2_witness_game c2_witness_game.active_player_index
            PlayerAction.ALL_IN 0).2.players[j]? = some q) :=
  by
  refine ⟨by decide, ?_⟩
  have hp : c2_witness_game.players[c2_witness_game.active_player_index]? =
      some { user_id := 2, chips := 7 } := by decide
  have hpha : betting_phases.contains c2_witness_game.phase = true := by decide
  have hids : c2_witness_game.players.Pairwise
      (fun a b => a.user_id ≠ b.user_id) := by decide
  have hngt : ¬ c2_witness_game.current_bet < (0 : Int) + 7 := by decide
  have h := claim2_all_in c2_witness_game { user_id := 2, chips := 7 } hp
    (by decide) (by decide) hpha (by decide) hids
  exact h.2.2.2.2 hngt

lemma sorted_levels_cons (x : Int) (l : List Int) :
    sorted_levels (x :: l) = insertLevel x (sorted_levels l) := rfl

lemma add_to_last_ne_nil (pots : List SidePot) (d : Int) (h : pots ≠ []) :
    add_to_last pots d ≠ [] := by
  match pots with
  | [] => exact absurd rfl h
  | [p] => simp [add_to_last]
  | p :: q :: rest => simp [add_to_last]

lemma sum_amounts_add_to_last (pots : List SidePot) (d : Int) (h : pots ≠ []) :
    sum_amounts (add_to_last pots d) = sum_amounts pots + d := by
  induction pots with
  | nil => exact absurd rfl h
  | cons p rest ih =>
    cases rest with
    | nil =>
      simp [add_to_last, sum_amounts]
    | cons q rest2 =>
      have hih := ih (by simp)
      simp only [add_to_last, sum_amounts, List.map_cons, List.sum_cons] at hih ⊢
      rw [hih]
      ring

lemma sorted_levels_const (l : List Int) (c : Int) (h : ∀ x ∈ l, x = c) :
    sorted_levels l = [] ∨ sorted_levels l = [c] := by
  induction l with
  | nil => exact Or.inl rfl
  | cons x xs ih =>
    have hx : x = c := h x (by simp)
    have hxs : ∀ y ∈ xs, y = c := fun y hy => h y (by simp [hy])
    refine Or.inr ?_
    rw [sorted_levels_cons, hx]
    rcases ih hxs with h0 | h1
    · rw [h0]
      rfl
    · rw [h1]
      simp [insertLevel, lt_irrefl]

/-- C1: the side pots built by GameEngine._create_side_pots always sum
exactly to game.pot (the rounding difference is folded into the last
pot), and when all non-folded players' contributions are equal the
result is the single main pot with all non-folded players eligible. -/
theorem claim1_side_pots_sum (game : TexasHoldemGame) :
    sum_amounts (create_side_pots game) = game.pot ∧
    ((∀ a ∈ game.players.filter (fun p => !p.is_folded),
        ∀ b ∈ game.players.filter (fun p => !p.is_folded),
          a.current_bet = b.current_bet) →
      create_side_pots game =
        [{ amount := game.pot,
           players := game.players.filter (fun p => !p.is_folded) }]) := by
  simp only [create_side_pots]
  by_cases h1 : (game.players.filter (fun p => !p.is_folded)).length ≤ 1
  · rw [if_pos h1]
    exact ⟨by simp [sum_amounts], fun _ => rfl⟩
  · rw [if_neg h1]
    by_cases h2 : ((game.players.filter (fun p => !p.is_folded)).filter
        (fun p => p.is_all_in)).isEmpty = true
    · rw [if_pos h2]
      exact ⟨by simp [sum_amounts], fun _ => rfl⟩
    · rw [if_neg h2]
      by_cases h3 : (sorted_levels ((game.players.filter
          (fun p => !p.is_folded)).map Player.current_bet)).length ≤ 1
      · rw [if_pos h3]
        exact ⟨by simp [sum_amounts], fun _ => rfl⟩
      · rw [if_neg h3]
        set P := build_level_pots (game.players.filter (fun p => !p.is_folded))
          (sorted_levels ((game.players.filter (fun p => !p.is_folded)).map
            Player.current_bet)) none with hPdef
        constructor
        · split_ifs with hc1 hc2 hc3 hc4 hc5
          · simp [sum_amounts]
          · rw [sum_amounts_add_to_last _ _ hc2.1]
            ring
          · simp [sum_amounts]
          · exfalso
            rcases not_and_or.mp hc2 with hnil | hdz
            · rw [not_not.mp hnil] at hc4
              simp at hc4
            · exact hc1 (by omega)
          · simp [sum_amounts]
          · exact not_ne_iff.mp hc1
        · intro hall
          exfalso
          obtain ⟨a, ha⟩ : ∃ a, a ∈ game.players.filter (fun p => !p.is_folded) := by
            cases hl : game.players.filter (fun p => !p.is_folded) with
            | nil => rw [hl] at h1; simp at h1
            | cons a rest => exact ⟨a, by simp⟩
          have hconst : ∀ x ∈ (game.players.filter
              (fun p => !p.is_folded)).map Player.current_bet,
              x = a.current_bet := by
            intro x hx
            obtain ⟨b, hb, hbx⟩ := List.mem_map.mp hx
            rw [← hbx]
            exact hall b hb a ha
          rcases sorted_levels_const _ _ hconst with h0 | hone
          · rw [h0] at h3
            simp at h3
          · rw [hone] at h3
            simp at h3

/-- Witness for C1 at a concrete equal-contribution showdown state with
an all-in player: the constructor returns the single main pot. -/
theorem claim1_side_pots_sum_witness :
    (∀ a ∈ c1_witness_game.players.filter (fun p => !p.is_folded),
       ∀ b ∈ c1_witness_game.players.filter (fun p => !p.is_folded),
         a.current_bet = b.current_bet) ∧
    create_side_pots c1_witness_game =
      [{ amount := c1_witness_game.pot,
         players := c1_witness_game.players.filter (fun p => !p.is_folded) }] :=
  ⟨by decide, (claim1_side_pots_sum c1_witness_game).2 (by decide)⟩

lemma foldl_winners_ne_nil (rest : List (Player × HandRank × List Nat)) :
    ∀ st : List Player × HandRank × List Nat, st.1 ≠ [] →
      (rest.foldl winners_step st).1 ≠ [] := by
  induction rest with
  | nil => exact fun st h => h
  | cons ph t ih =>
    intro st hst
    refine ih (winners_step st ph) ?_
    simp only [winners_step]
    split_ifs with h1 h2
    · simp
    · simp
    · exact hst

lemma pot_winners_ne_nil (hands : List (Player × HandRank × List Nat))
    (h : hands ≠ []) : pot_winners hands ≠ [] := by
  match hands with
  | [] => exact absurd rfl h
  | h0 :: rest => exact foldl_winners_ne_nil rest ([h0.1], h0.2) (by simp)

lemma sum_range_indicator (r : Int) (hr : 0 ≤ r) (n : Nat) :
    ((List.range n).map (fun (j : Nat) => if (j : Int) < r then (1 : Int) else 0)).sum
      = max 0 (min (n : Int) r) := by
  induction n with
  | zero => simp
  | succ n ih =>
    rw [List.range_succ, List.map_append, List.sum_append, ih]
    simp only [List.map_cons, List.map_nil, List.sum_cons, List.sum_nil, add_zero]
    push_cast
    by_cases h : (n : Int) < r
    · rw [if_pos h]
      rw [max_def, max_def, min_def, min_def]
      split_ifs <;> omega
    · rw [if_neg h]
      rw [max_def, max_def, min_def, min_def]
      split_ifs <;> omega

lemma sum_pot_shares (amount : Int) (n : Nat) (hn : 0 < n) (_ha : 0 ≤ amount) :
    ((List.range n).map (fun j => pot_share amount n j)).sum = amount := by
  have hnpos : (0 : Int) < (n : Int) := by exact_mod_cast hn
  have hr0 : 0 ≤ amount % (n : Int) := Int.emod_nonneg amount (by omega)
  have hrlt : amount % (n : Int) < (n : Int) := Int.emod_lt_of_pos amount hnpos
  unfold pot_share
  rw [List.sum_map_add, sum_range_indicator _ hr0 n]
  have hconst : ((List.range n).map (fun _ => amount / (n : Int))).sum
      = (n : Int) * (amount / (n : Int)) := by
    rw [show (fun (_ : Nat) => amount / (n : Int))
        = Function.const Nat (amount / (n : Int)) from rfl,
      List.map_const, List.sum_replicate, List.length_range, nsmul_eq_mul]
  rw [hconst]
  have hmin : max 0 (min (n : Int) (amount % (n : Int))) = amount % (n : Int) := by
    rw [max_def, min_def]
    split_ifs <;> omega
  rw [hmin]
  exact Int.ediv_add_emod amount n

/-- C9: for a side pot with a nonempty list of eligible showdown hands
and a nonnegative amount, the winner scan returns a nonempty winner
list, the per-pot payouts go exactly to those winners in list order, the
payouts sum to the pot amount, and shares are an even split: they are
non-increasing along the winner list and any two shares differ by at
most one chip (the remainder goes one chip at a time to the earliest
winners). -/
theorem claim9_distribute_pot (amount : Int)
    (hands : List (Player × HandRank × List Nat))
    (hne : hands ≠ []) (ha : 0 ≤ amount) :
    pot_winners hands ≠ [] ∧
    ((distribute_one_pot amount hands).map Prod.fst).sum = amount ∧
    (distribute_one_pot amount hands).map Prod.snd = pot_winners hands ∧
    (∀ j k : Nat, j ≤ k →
      pot_share amount (pot_winners hands).length k ≤
        pot_share amount (pot_winners hands).length j ∧
      pot_share amount (pot_winners hands).length j ≤
        pot_share amount (pot_winners hands).length k + 1) := by
  have hw := pot_winners_ne_nil hands hne
  have hn : 0 < (pot_winners hands).length := List.length_pos.mpr hw
  refine ⟨hw, ?_, ?_, ?_⟩
  · unfold distribute_one_pot
    rw [List.map_map]
    rw [show (Prod.fst ∘ fun iw : Nat × Player =>
        (pot_share amount (pot_winners hands).length iw.1, iw.2))
        = (fun j => pot_share amount (pot_winners hands).length j) ∘ Prod.fst from rfl]
    rw [← List.map_map, List.enum_map_fst]
    exact sum_pot_shares amount _ hn ha
  · unfold distribute_one_pot
    rw [List.map_map]
    rw [show (Prod.snd ∘ fun iw : Nat × Player =>
        (pot_share amount (pot_winners hands).length iw.1, iw.2))
        = Prod.snd from rfl]
    exact List.enum_map_snd _
  · intro j k hjk
    have hjk2 : (j : Int) ≤ (k : Int) := by exact_mod_cast hjk
    unfold pot_share
    constructor
    · split_ifs <;> omega
    · split_ifs <;> omega

/-- Witness for C9: three identical one-pair hands share a 7-chip pot;
the payouts sum to 7 (the concrete shares are 3, 2, 2). -/
theorem claim9_distribute_pot_witness :
    c9_witness_hands ≠ [] ∧ (0 : Int) ≤ 7 ∧
    ((distribute_one_pot 7 c9_witness_hands).map Prod.fst).sum = 7 := by
  refine ⟨by decide, by decide, ?_⟩
  exact (claim9_distribute_pot 7 c9_witness_hands (by decide) (by decide)).2.1

lemma sum_chips_set (l : List Player) (i : Nat) (p p' : Player)
    (h : l[i]? = some p) :
    sum_chips (l.set i p') = sum_chips l - p.chips + p'.chips := by
  induction l generalizing i with
  | nil => simp at h
  | cons a t ih =>
    cases i with
    | zero =>
      simp only [List.getElem?_cons_zero, Option.some.injEq] at h
      subst h
      simp [sum_chips]
      ring
    | succ j =>
      simp only [List.getElem?_cons_succ] at h
      simp only [List.set_cons_succ, sum_chips, List.map_cons, List.sum_cons]
      have hih := ih j h
      simp only [sum_chips] at hih
      rw [hih]
      ring

lemma sum_chips_map_eq (l : List Player) (f : Player → Player)
    (hf : ∀ p, (f p).chips = p.chips) : sum_chips (l.map f) = sum_chips l := by
  induction l with
  | nil => rfl
  | cons a t ih =>
    simp only [List.map_cons, sum_chips, List.sum_cons] at ih ⊢
    rw [hf a, ih]

lemma sum_chips_reset_others (l : List Player) (uid : Nat) :
    sum_chips (reset_others_has_acted l uid) = sum_chips l := by
  apply sum_chips_map_eq
  intro p
  dsimp only
  split <;> rfl

lemma sum_chips_mark_acted (l : List Player) (i : Nat) :
    sum_chips (update_player l i (fun q => { q with has_acted_this_round := true }))
      = sum_chips l := by
  cases h : l[i]? with
  | none => simp [update_player, h]
  | some p =>
    simp only [update_player, h]
    rw [sum_chips_set l i p _ h]
    ring

lemma chip_total_handle_fold (g : TexasHoldemGame) (i : Nat) (amt : Int) :
    chip_total (handle_fold g i amt).2 = chip_total g := by
  cases h : g.players[i]? with
  | none => simp [handle_fold, h]
  | some p =>
    simp only [handle_fold, h, chip_total]
    rw [sum_chips_set g.players i p _ h]
    ring

lemma chip_total_handle_check (g : TexasHoldemGame) (i : Nat) (amt : Int) :
    chip_total (handle_check g i amt).2 = chip_total g := by
  cases h : g.players[i]? with
  | none => simp [handle_check, h]
  | some p =>
    by_cases hc : 0 < g.current_bet - p.current_bet
    · simp [handle_check, h, hc]
    · simp only [handle_check, h, if_neg hc, chip_total]
      rw [sum_chips_set g.players i p _ h]
      ring

lemma chip_total_handle_call (g : TexasHoldemGame) (i : Nat) (amt : Int) :
    chip_total (handle_call g i amt).2 = chip_total g := by
  cases h : g.players[i]? with
  | none => simp [handle_call, h]
  | some p =>
    by_cases h1 : g.current_bet - p.current_bet ≤ 0
    · simp [handle_call, h, h1]
    · by_cases h2 : p.chips < g.current_bet - p.current_bet
      · simp [handle_call, h, h1, h2]
      · simp only [handle_call, h, if_neg h1, if_neg h2, chip_total]
        rw [sum_chips_set g.players i p _ h]
        ring

lemma chip_total_handle_raise (g : TexasHoldemGame) (i : Nat) (amt : Int) :
    chip_total (handle_raise g i amt).2 = chip_total g := by
  cases h : g.players[i]? with
  | none => simp [handle_raise, h]
  | some p =>
    by_cases h1 : amt ≤ 0
    · simp [handle_raise, h, h1]
    · by_cases h2 : p.chips < (g.current_bet - p.current_bet) + amt
      · simp [handle_raise, h, h1, h2]
      · by_cases h3 : amt < g.big_blind
        · simp [handle_raise, h, h1, h2, h3]
        · simp only [handle_raise, h, if_neg h1, if_neg h2, if_neg h3, chip_total]
          rw [sum_chips_reset_others, sum_chips_set g.players i p _ h]
          ring

lemma chip_total_handle_all_in (g : TexasHoldemGame) (i : Nat) (amt : Int) :
    chip_total (handle_all_in g i amt).2 = chip_total g := by
  cases h : g.players[i]? with
  | none => simp [handle_all_in, h]
  | some p =>
    by_cases h1 : p.chips ≤ 0
    · simp [handle_all_in, h, h1]
    · by_cases h2 : g.current_bet < p.current_bet + p.chips
      · simp only [handle_all_in, h, if_neg h1, if_pos h2, chip_total]
        rw [sum_chips_reset_others, sum_chips_set g.players i p _ h]
        ring
      · simp only [handle_all_in, h, if_neg h1, if_neg h2, chip_total]
        rw [sum_chips_set g.players i p _ h]
        ring

lemma chip_total_process_aux (g : TexasHoldemGame) (i : Nat)
    (r : Bool × TexasHoldemGame) (hr : chip_total r.2 = chip_total g) :
    chip_total (if r.1 = true then
      ((true,
        { r.2 with
          players :=
            update_player r.2.players i fun q =>
              { q with has_acted_this_round := true } }) : Bool × TexasHoldemGame)
      else (false, r.2)).2 = chip_total g := by
  by_cases h1 : r.1 = true
  · rw [if_pos h1]
    simp only [chip_total] at hr ⊢
    rw [sum_chips_mark_acted]
    exact hr
  · rw [if_neg h1]
    exact hr

lemma chip_total_process_action (g : TexasHoldemGame) (i : Nat)
    (a : PlayerAction) (amount : Int) :
    chip_total (process_action g i a amount).2 = chip_total g := by
  cases h : g.players[i]? with
  | none => simp [process_action, h]
  | some p =>
    by_cases hact : can_player_act g p = true
    · cases a with
      | FOLD =>
        simp only [process_action, h, hact, Bool.not_true, Bool.false_eq_true,
          if_false]
        exact chip_total_process_aux g i (handle_fold g i amount)
          (chip_total_handle_fold g i amount)
      | CHECK =>
        simp only [process_action, h, hact, Bool.not_true, Bool.false_eq_true,
          if_false]
        exact chip_total_process_aux g i (handle_check g i amount)
          (chip_total_handle_check g i amount)
      | CALL =>
        simp only [process_action, h, hact, Bool.not_true, Bool.false_eq_true,
          if_false]
        exact chip_total_process_aux g i (handle_call g i amount)
          (chip_total_handle_call g i amount)
      | RAISE =>
        simp only [process_action, h, hact, Bool.not_true, Bool.false_eq_true,
          if_false]
        exact chip_total_process_aux g i (handle_raise g i amount)
          (chip_total_handle_raise g i amount)
      | ALL_IN =>
        simp only [process_action, h, hact, Bool.not_true, Bool.false_eq_true,
          if_false]
        exact chip_total_process_aux g i (handle_all_in g i amount)
          (chip_total_handle_all_in g i amount)
    · simp [process_action, h, hact]

lemma chip_total_post_blinds (g : TexasHoldemGame) :
    chip_total (post_blinds g) = chip_total g := by
  simp only [post_blinds]
  cases h1 : g.players[(if g.players.length == 2 then g.dealer_index
      else (g.dealer_index + 1) % g.players.length)]? with
  | none =>
    dsimp only
    cases h2 : g.players[(if g.players.length == 2 then (g.dealer_index + 1) % 2
        else (g.dealer_index + 2) % g.players.length)]? with
    | none => rfl
    | some bb =>
      simp only [chip_total]
      rw [sum_chips_set g.players _ bb _ h2]
      ring
  | some sb =>
    dsimp only
    cases h2 : (g.players.set (if g.players.length == 2 then g.dealer_index
        else (g.dealer_index + 1) % g.players.length)
        { sb with
          chips := sb.chips - min g.small_blind sb.chips,
          current_bet := min g.small_blind sb.chips,
          is_all_in := if sb.chips - min g.small_blind sb.chips == 0 then true
            else sb.is_all_in })[(if g.players.length == 2 then (g.dealer_index + 1) % 2
        else (g.dealer_index + 2) % g.players.length)]? with
    | none =>
      simp only [chip_total]
      rw [sum_chips_set g.players _ sb _ h1]
      ring
    | some bb =>
      simp only [chip_total]
      rw [sum_chips_set _ _ bb _ h2, sum_chips_set g.players _ sb _ h1]
      ring

lemma chip_total_reset_betting_round (g : TexasHoldemGame) :
    chip_total (reset_betting_round g) = chip_total g := by
  simp only [reset_betting_round, chip_total]
  have hmap := sum_chips_map_eq g.players
    (fun p =>
      { p with current_bet := 0, has_acted_this_round := false, last_action := none })
    (fun p => rfl)
  rw [hmap]

/-- C5 counterexample: immediately after the blinds are posted (a
reachable state of a fresh 10/20 heads-up hand), the sum of all
current_bet plus the pot is 60, while the chips actually wagered this
hand (the stack decrease) total 30 — the claimed invariant
double-counts, because every bet is added to the pot at once. -/
theorem claim5_counterexample :
    (c5_start_game.pot = 0 ∧
      Reachable c5_start_game (post_blinds c5_start_game)) ∧
    sum_bets (post_blinds c5_start_game).players + (post_blinds c5_start_game).pot ≠
      sum_chips c5_start_game.players - sum_chips (post_blinds c5_start_game).players := by
  refine ⟨⟨rfl, Reachable.tail (Reachable.refl _) (Step.blinds _)⟩, ?_⟩
  decide

/-- C5 amended: in every state reachable during a hand (blinds, betting
actions, street resets) from a start with an empty pot, the pot alone
equals the total chips wagered this hand — the stacks' total decrease;
players' current_bet amounts are already included in the pot. -/
theorem claim5_pot_equals_wagered (g0 g : TexasHoldemGame)
    (hinit : g0.pot = 0) (hreach : Reachable g0 g) :
    g.pot = sum_chips g0.players - sum_chips g.players := by
  have key : chip_total g = chip_total g0 := by
    induction hreach with
    | refl => rfl
    | tail hr hs ih =>
      rw [← ih]
      cases hs with
      | action i a amount => exact chip_total_process_action _ i a amount
      | blinds => exact chip_total_post_blinds _
      | reset => exact chip_total_reset_betting_round _
  simp only [chip_total] at key
  omega

/-- Witness for the amended C5 theorem: after posting the blinds of the
fresh heads-up hand the pot (30) equals the total stack decrease. -/
theorem claim5_pot_equals_wagered_witness :
    c5_start_game.pot = 0 ∧
    (post_blinds c5_start_game).pot =
      sum_chips c5_start_game.players - sum_chips (post_blinds c5_start_game).players :=
  ⟨rfl, claim5_pot_equals_wagered c5_start_game (post_blinds c5_start_game) rfl
    (Reachable.tail (Reachable.refl _) (Step.blinds _))⟩

lemma mem_uniqueInOrderAux (seen l : List Nat) (a : Nat) :
    a ∈ uniqueInOrderAux seen l ↔ a ∈ l ∧ a ∉ seen := by
  induction l generalizing seen with
  | nil => simp [uniqueInOrderAux]
  | cons x xs ih =>
    by_cases hx : x ∈ seen
    · rw [uniqueInOrderAux, if_pos hx, ih]
      constructor
      · rintro ⟨hm, hs⟩
        exact ⟨List.mem_cons_of_mem x hm, hs⟩
      · rintro ⟨hm, hs⟩
        rcases List.mem_cons.mp hm with rfl | hm2
        · exact absurd hx hs
        · exact ⟨hm2, hs⟩
    · rw [uniqueInOrderAux, if_neg hx]
      constructor
      · intro hm
        rcases List.mem_cons.mp hm with rfl | hm2
        · exact ⟨List.mem_cons_self _ _, hx⟩
        · obtain ⟨h1, h2⟩ := (ih (x :: seen)).mp hm2
          refine ⟨List.mem_cons_of_mem x h1, fun hs => h2 (List.mem_cons_of_mem x hs)⟩
      · rintro ⟨hm, hs⟩
        rcases List.mem_cons.mp hm with rfl | hm2
        · exact List.mem_cons_self _ _
        · by_cases hax : a = x
          · subst hax
            exact List.mem_cons_self _ _
          · refine List.mem_cons_of_mem x ((ih (x :: seen)).mpr ⟨hm2, ?_⟩)
            intro hmem
            rcases List.mem_cons.mp hmem with h | h
            · exact hax h
            · exact hs h

lemma nodup_uniqueInOrderAux (seen l : List Nat) :
    (uniqueInOrderAux seen l).Nodup := by
  induction l generalizing seen with
  | nil => exact List.nodup_nil
  | cons x xs ih =>
    by_cases hx : x ∈ seen
    · rw [uniqueInOrderAux, if_pos hx]
      exact ih seen
    · rw [uniqueInOrderAux, if_neg hx]
      refine List.Nodup.cons ?_ (ih (x :: seen))
      intro hmem
      obtain ⟨-, hs⟩ := (mem_uniqueInOrderAux (x :: seen) xs x).mp hmem
      exact hs (List.mem_cons_self _ _)

lemma mem_uniqueInOrder (l : List Nat) (a : Nat) :
    a ∈ uniqueInOrder l ↔ a ∈ l := by
  rw [uniqueInOrder, mem_uniqueInOrderAux]
  simp

lemma nodup_uniqueInOrder (l : List Nat) : (uniqueInOrder l).Nodup :=
  nodup_uniqueInOrderAux [] l

lemma sortDesc_perm (l : List Nat) : (sortDesc l).Perm l :=
  List.perm_insertionSort _ l

lemma sortDesc_sorted (l : List Nat) :
    List.Sorted (fun a b => b ≤ a) (sortDesc l) :=
  List.sorted_insertionSort _ l

lemma sortDesc_length (l : List Nat) : (sortDesc l).length = l.length :=
  List.length_insertionSort _ l

lemma count_map_eq_countP (l : List Nat) (f : Nat → Nat) (k : Nat) :
    (l.map f).count k = l.countP (fun a => f a == k) := by
  induction l with
  | nil => rfl
  | cons a t ih =>
    rw [List.map_cons, List.count_cons, List.countP_cons, ih]

lemma exists_count (uniq values cs : List Nat) (k : Nat)
    (hc : sortDesc (uniq.map (fun v => values.count v)) = cs) (hk : k ∈ cs) :
    ∃ u ∈ uniq, values.count u = k := by
  have hperm : cs.Perm (uniq.map (fun v => values.count v)) := by
    rw [← hc]
    exact sortDesc_perm _
  have hmem : k ∈ uniq.map (fun v => values.count v) := hperm.mem_iff.mp hk
  obtain ⟨u, hu, hcu⟩ := List.mem_map.mp hmem
  exact ⟨u, hu, hcu⟩

lemma filter_count_head (uniq values : List Nat) (k : Nat)
    (h : ∃ u ∈ uniq, values.count u = k) :
    values.count ((uniq.filter (fun v => values.count v == k)).headD 0) = k := by
  obtain ⟨u, hu, hcnt⟩ := h
  have hmemf : u ∈ uniq.filter (fun v => values.count v == k) :=
    List.mem_filter.mpr ⟨hu, by simp [hcnt]⟩
  cases hf : uniq.filter (fun v => values.count v == k) with
  | nil => rw [hf] at hmemf; simp at hmemf
  | cons a t =>
    have ha : a ∈ uniq.filter (fun v => values.count v == k) := by
      rw [hf]
      exact List.mem_cons_self _ _
    have := (List.mem_filter.mp ha).2
    simpa using this

lemma length_filter_count (uniq values cs : List Nat) (k : Nat)
    (hc : sortDesc (uniq.map (fun v => values.count v)) = cs) :
    (uniq.filter (fun v => values.count v == k)).length = cs.count k := by
  rw [← List.countP_eq_length_filter, ← count_map_eq_countP]
  have hperm : cs.Perm (uniq.map (fun v => values.count v)) := by
    rw [← hc]
    exact sortDesc_perm _
  exact (hperm.count_eq k).symm

lemma full_house_vector (cards : List Card) (v : List Nat)
    (hc : sortDesc ((uniqueInOrder (sortDesc (cards.map Card.value))).map
      (fun u => (sortDesc (cards.map Card.value)).count u)) = [3, 2])
    (hv : [((uniqueInOrder (sortDesc (cards.map Card.value))).filter
        (fun u => (sortDesc (cards.map Card.value)).count u == 3)).headD 0,
      ((uniqueInOrder (sortDesc (cards.map Card.value))).filter
        (fun u => (sortDesc (cards.map Card.value)).count u == 2)).headD 0] = v) :
    ∃ t q, v = [t, q] ∧ (cards.map Card.value).count t = 3 ∧
      (cards.map Card.value).count q = 2 := by
  refine ⟨_, _, hv.symm, ?_, ?_⟩
  · have h3 := filter_count_head _ _ 3 (exists_count _ _ _ 3 hc (by decide))
    rwa [(sortDesc_perm (cards.map Card.value)).count_eq] at h3
  · have h2 := filter_count_head _ _ 2 (exists_count _ _ _ 2 hc (by decide))
    rwa [(sortDesc_perm (cards.map Card.value)).count_eq] at h2

lemma two_pair_vector (cards : List Card) (v : List Nat)
    (hc : sortDesc ((uniqueInOrder (sortDesc (cards.map Card.value))).map
      (fun u => (sortDesc (cards.map Card.value)).count u)) = [2, 2, 1])
    (hv : sortDesc ((uniqueInOrder (sortDesc (cards.map Card.value))).filter
        (fun u => (sortDesc (cards.map Card.value)).count u == 2)) ++
      [((uniqueInOrder (sortDesc (cards.map Card.value))).filter
        (fun u => (sortDesc (cards.map Card.value)).count u == 1)).headD 0] = v) :
    ∃ a b k, v = [a, b, k] ∧ b < a ∧ (cards.map Card.value).count a = 2 ∧
      (cards.map Card.value).count b = 2 ∧ (cards.map Card.value).count k = 1 := by
  have hlen2 : ((uniqueInOrder (sortDesc (cards.map Card.value))).filter
      (fun u => (sortDesc (cards.map Card.value)).count u == 2)).length = 2 := by
    have := length_filter_count _ _ _ 2 hc
    simpa using this
  have hnd : ((uniqueInOrder (sortDesc (cards.map Card.value))).filter
      (fun u => (sortDesc (cards.map Card.value)).count u == 2)).Nodup :=
    List.Nodup.filter _ (nodup_uniqueInOrder _)
  have hpr := sortDesc_perm ((uniqueInOrder (sortDesc (cards.map Card.value))).filter
      (fun u => (sortDesc (cards.map Card.value)).count u == 2))
  have hprlen : (sortDesc ((uniqueInOrder (sortDesc (cards.map Card.value))).filter
      (fun u => (sortDesc (cards.map Card.value)).count u == 2))).length = 2 := by
    rw [sortDesc_length]
    exact hlen2
  obtain ⟨a, b, hab⟩ := List.length_eq_two.mp hprlen
  have hnd2 := hpr.nodup_iff.mpr hnd
  rw [hab] at hnd2
  have hne : a ≠ b := by simpa using hnd2
  have hs := sortDesc_sorted ((uniqueInOrder (sortDesc (cards.map Card.value))).filter
      (fun u => (sortDesc (cards.map Card.value)).count u == 2))
  rw [hab] at hs
  have hba : b ≤ a := List.rel_of_sorted_cons hs b (by simp)
  have hmema : a ∈ (uniqueInOrder (sortDesc (cards.map Card.value))).filter
      (fun u => (sortDesc (cards.map Card.value)).count u == 2) :=
    hpr.mem_iff.mp (by rw [hab]; simp)
  have hmemb : b ∈ (uniqueInOrder (sortDesc (cards.map Card.value))).filter
      (fun u => (sortDesc (cards.map Card.value)).count u == 2) :=
    hpr.mem_iff.mp (by rw [hab]; simp)
  have hca : (sortDesc (cards.map Card.value)).count a = 2 := by
    simpa using (List.mem_filter.mp hmema).2
  have hcb : (sortDesc (cards.map Card.value)).count b = 2 := by
    simpa using (List.mem_filter.mp hmemb).2
  have hk := filter_count_head _ _ 1 (exists_count _ _ _ 1 hc (by decide))
  rw [hab] at hv
  refine ⟨a, b, _, hv.symm, lt_of_le_of_ne hba (Ne.symm hne), ?_, ?_, ?_⟩
  · rwa [(sortDesc_perm (cards.map Card.value)).count_eq] at hca
  · rwa [(sortDesc_perm (cards.map Card.value)).count_eq] at hcb
  · rwa [(sortDesc_perm (cards.map Card.value)).count_eq] at hk

lemma straight_high_vector (cards : List Card) (v : List Nat)
    (hlen5 : cards.length = 5)
    (hnw : ¬ sortDesc (cards.map Card.value) = [14, 5, 4, 3, 2])
    (hv : [(sortDesc (cards.map Card.value)).headD 0] = v) :
    ∃ hc, v = [hc] ∧
      (if sortDesc (cards.map Card.value) = [14, 5, 4, 3, 2] then hc = 5
       else hc ∈ cards.map Card.value ∧ ∀ x ∈ cards.map Card.value, x ≤ hc) := by
  refine ⟨(sortDesc (cards.map Card.value)).headD 0, hv.symm, ?_⟩
  rw [if_neg hnw]
  have hlen : (sortDesc (cards.map Card.value)).length = 5 := by
    rw [sortDesc_length, List.length_map, hlen5]
  cases hvv : sortDesc (cards.map Card.value) with
  | nil => rw [hvv] at hlen; simp at hlen
  | cons hd t =>
    constructor
    · have hmem : hd ∈ sortDesc (cards.map Card.value) := by
        rw [hvv]
        exact List.mem_cons_self _ _
      exact (sortDesc_perm _).mem_iff.mp hmem
    · intro x hx
      have hx0 : x ∈ sortDesc (cards.map Card.value) := (sortDesc_perm _).mem_iff.mpr hx
      rw [hvv] at hx0
      rcases List.mem_cons.mp hx0 with rfl | hxt
      · exact le_refl _
      · have hs := sortDesc_sorted (cards.map Card.value)
        rw [hvv] at hs
        exact List.rel_of_sorted_cons hs x hxt

lemma flush_sorted_vector (cards : List Card) (v : List Nat)
    (hv : sortDesc (cards.map Card.value) = v) :
    v.Perm (cards.map Card.value) ∧ List.Sorted (fun a b => b ≤ a) v := by
  subst hv
  exact ⟨sortDesc_perm _, sortDesc_sorted _⟩

set_option maxHeartbeats 4000000 in
/-- C6: for every 5-card hand the evaluator's tiebreak vector has the
specified shape: FullHouse → [trips rank, pair rank]; TwoPair →
[high pair, low pair, kicker]; Straight and StraightFlush → [high card],
where the wheel A-5-4-3-2 gets high card 5 and any other straight the
maximum rank; Flush and HighCard → all five ranks in descending order;
and a hand whose descending ranks are A-5-4-3-2 evaluates to a straight
(or straight flush) with tiebreak [5]. -/
theorem claim6_tiebreak_vectors (cards : List Card) (hlen5 : cards.length = 5) :
    (∀ v, evaluate_five_cards cards = (HandRank.FULL_HOUSE, v) →
      ∃ t p, v = [t, p] ∧ (cards.map Card.value).count t = 3 ∧
        (cards.map Card.value).count p = 2) ∧
    (∀ v, evaluate_five_cards cards = (HandRank.TWO_PAIR, v) →
      ∃ a b k, v = [a, b, k] ∧ b < a ∧ (cards.map Card.value).count a = 2 ∧
        (cards.map Card.value).count b = 2 ∧ (cards.map Card.value).count k = 1) ∧
    (∀ v, evaluate_five_cards cards = (HandRank.STRAIGHT, v) ∨
        evaluate_five_cards cards = (HandRank.STRAIGHT_FLUSH, v) →
      ∃ hc, v = [hc] ∧
        (if sortDesc (cards.map Card.value) = [14, 5, 4, 3, 2] then hc = 5
         else hc ∈ cards.map Card.value ∧ ∀ x ∈ cards.map Card.value, x ≤ hc)) ∧
    (∀ v, evaluate_five_cards cards = (HandRank.FLUSH, v) ∨
        evaluate_five_cards cards = (HandRank.HIGH_CARD, v) →
      v.Perm (cards.map Card.value) ∧ List.Sorted (fun a b => b ≤ a) v) ∧
    (sortDesc (cards.map Card.value) = [14, 5, 4, 3, 2] →
      evaluate_five_cards cards = (HandRank.STRAIGHT, [5]) ∨
      evaluate_five_cards cards = (HandRank.STRAIGHT_FLUSH, [5])) := by
  refine ⟨?_, ?_, ?_, ?_, ?_⟩
  · intro v heq
    simp only [evaluate_five_cards] at heq
    split_ifs at heq with h1 h2 h3 h4 h5 h6 h7 h8 h9 h10 h11 h12 h13 h14
    all_goals simp only [Prod.mk.injEq] at heq
    all_goals try exact absurd heq.1 (by decide)
    · exact full_house_vector cards v (by simpa using h5) heq.2
    · exact full_house_vector cards v (by simpa using h14) heq.2
  · intro v heq
    simp only [evaluate_five_cards] at heq
    split_ifs at heq with h1 h2 h3 h4 h5 h6 h7 h8 h9 h10 h11 h12 h13 h14 h15 h16 h17 h18
    all_goals simp only [Prod.mk.injEq] at heq
    all_goals try exact absurd heq.1 (by decide)
    · exact absurd rfl h7
    · exact two_pair_vector cards v (by simpa using h18) heq.2
  · rintro v (heq | heq)
    · simp only [evaluate_five_cards] at heq
      split_ifs at heq with h1 h2 h3 h4 h5 h6 h7 h8 h9 h10 h11 h12 h13 h14 h15 h16
      all_goals simp only [Prod.mk.injEq] at heq
      all_goals try exact absurd heq.1 (by decide)
      · refine ⟨5, heq.2.symm, ?_⟩
        rw [if_pos (by simpa using h1)]
      · exact straight_high_vector cards v hlen5 (by simpa using h1) heq.2
    · simp only [evaluate_five_cards] at heq
      split_ifs at heq with h1 h2 h3 h4 h5 h6 h7 h8 h9 h10 h11 h12 h13 h14 h15 h16
      all_goals simp only [Prod.mk.injEq] at heq
      all_goals try exact absurd heq.1 (by decide)
      · refine ⟨5, heq.2.symm, ?_⟩
        rw [if_pos (by simpa using h1)]
      · exact straight_high_vector cards v hlen5 (by simpa using h1) heq.2
  · rintro v (heq | heq)
    · simp only [evaluate_five_cards] at heq
      split_ifs at heq with h1 h2 h3 h4 h5 h6 h7 h8 h9 h10 h11 h12 h13 h14 h15 h16
      all_goals simp only [Prod.mk.injEq] at heq
      all_goals try exact absurd heq.1 (by decide)
      · exact absurd (by simp [h6]) h2
      · exact flush_sorted_vector cards v heq.2
    · simp only [evaluate_five_cards] at heq
      split_ifs at heq with h1 h2 h3 h4 h5 h6 h7 h8 h9 h10 h11 h12 h13 h14 h15 h16 h17 h18
      all_goals simp only [Prod.mk.injEq] at heq
      all_goals try exact absurd heq.1 (by decide)
      · exact absurd rfl h7
      · exact flush_sorted_vector cards v heq.2
  · intro hw
    by_cases hf : flush_check (cards.map Card.suit) = true
    · right
      simp only [evaluate_five_cards, hw, hf]
      decide
    · left
      have hf2 : flush_check (cards.map Card.suit) = false := by
        cases hcc : flush_check (cards.map Card.suit)
        · rfl
        · exact absurd hcc hf
      simp only [evaluate_five_cards, hw, hf2]
      decide

/-- Witness for C6: aces full of nines evaluates to a full house and the
theorem yields the [trips rank, pair rank] shape of its vector. -/
theorem claim6_tiebreak_vectors_witness :
    c6_witness_cards.length = 5 ∧
    (∃ t p, ([14, 9] : List Nat) = [t, p] ∧
      (c6_witness_cards.map Card.value).count t = 3 ∧
      (c6_witness_cards.map Card.value).count p = 2) :=
  ⟨by decide,
    (claim6_tiebreak_vectors c6_witness_cards (by decide)).1 [14, 9] (by decide)⟩

end TexasPoker
